import Mathlib

/-!
# go-sdk: query events (package logger), KV v2 secret paths (package secrets)
and response logging (package r2)

A shallow embedding of `logger/query_event.go`, `secrets/kv2.go` and
`r2/opt_log_response.go`.

Go strings are modelled as Lean strings, that is as sequences of Unicode code
points (a Go string that is valid UTF-8).  `len(s) > 0` is `0 < s.length`:
both say the string is not empty.
-/

namespace GoSdk

/-! ## Package strings -/

/-- Go `strings.HasPrefix(s, prefix)`. -/
def HasPrefix (s pre : String) : Bool :=
  pre.data.isPrefixOf s.data

/-- Go `strings.TrimPrefix(s, prefix)`: `s` without the leading `prefix`,
    and `s` itself when it does not start with `prefix`. -/
def TrimPrefix (s pre : String) : String :=
  if HasPrefix s pre then ⟨s.data.drop pre.data.length⟩ else s

/-- Go `unicode.IsSpace`: the Latin-1 spaces and the code points with the
    Unicode White_Space property. -/
def isSpace (c : Char) : Bool :=
  let n := c.toNat
  (0x09 ≤ n && n ≤ 0x0D) || n == 0x20 || n == 0x85 || n == 0xA0 || n == 0x1680 ||
  (0x2000 ≤ n && n ≤ 0x200A) || n == 0x2028 || n == 0x2029 || n == 0x202F ||
  n == 0x205F || n == 0x3000

/-- Go `strings.TrimSpace(s)`: `s` without its leading and trailing white
    space. -/
def TrimSpace (s : String) : String :=
  ⟨((s.data.dropWhile isSpace).reverse.dropWhile isSpace).reverse⟩

/-! ## Package secrets: `kv2.go` -/

/-- Method `KV2.fixSecretDataPrefix` (`kv2.go`, lines 64-72). -/
def fixSecretDataPrefix (key : String) : String :=
  let key := TrimPrefix key "/"
  if HasPrefix key "secret" && !HasPrefix key "secret/data" then
    let key := TrimPrefix key "secret/"
    "secret/data" ++ key
  else
    key

/-! ## Package path/filepath (Unix): `Clean` and `Join` -/

/-- The elements of a path: the text between the slashes. -/
def splitSlash : List Char → List (List Char)
  | [] => [[]]
  | c :: cs =>
    if c = '/' then [] :: splitSlash cs
    else
      match splitSlash cs with
      | [] => [[c]]
      | seg :: segs => (c :: seg) :: segs

/-- One round of the loop of Go `Clean`, on the elements kept so far and the
    next element: an empty element and `.` are dropped; `..` removes the
    element before it, is dropped at the root of a rooted path, and is kept
    at the start of a path that is not rooted; any other element is kept. -/
def cleanStep (rooted : Bool) (out : List (List Char)) (seg : List Char) : List (List Char) :=
  if seg = [] ∨ seg = ['.'] then out
  else if seg = ['.', '.'] then
    match out.getLast? with
    | none => if rooted then out else out ++ [seg]
    | some last => if last = ['.', '.'] then out ++ [seg] else out.dropLast
  else out ++ [seg]

/-- Elements joined with single slashes. -/
def joinSlash : List (List Char) → List Char
  | [] => []
  | [seg] => seg
  | seg :: rest => seg ++ '/' :: joinSlash rest

/-- Go `filepath.Clean(path)` on Unix. -/
def Clean (path : String) : String :=
  if path = "" then "."
  else
    let rooted := path.data.head? == some '/'
    let out := (splitSlash path.data).foldl (cleanStep rooted) []
    if rooted then ⟨'/' :: joinSlash out⟩
    else if out = [] then "."
    else ⟨joinSlash out⟩

/-- Go `strings.Join(elems, sep)`. -/
def stringsJoin : List String → String → String
  | [], _ => ""
  | [a], _ => a
  | a :: rest, sep => a ++ sep ++ stringsJoin rest sep

/-- Go `filepath.Join(elem...)` on Unix: the elements from the first
    non-empty one on, joined with slashes and cleaned. -/
def Join (elem : List String) : String :=
  match elem.dropWhile (fun e => e = "") with
  | [] => ""
  | rest => Clean (stringsJoin rest "/")

/-- The elements of a path that `Clean` looks at: those that are not empty
    and not `.`. -/
def pathElements (path : String) : List (List Char) :=
  (splitSlash path.data).filter (fun seg => !(decide (seg = []) || decide (seg = ['.'])))

/-! ## Package secrets: the request paths of `kv2.go` -/

/-- The path of the request that `KV2.Put` creates (line 26). -/
def PutPath (key : String) : String := Join ["/v1/", fixSecretDataPrefix key]

/-- The path of the request that `KV2.Get` creates (line 38). -/
def GetPath (key : String) : String := Join ["/v1/", fixSecretDataPrefix key]

/-- The path of the request that `KV2.Delete` creates (line 54). -/
def DeletePath (key : String) : String := Join ["/v1/", fixSecretDataPrefix key]

/-! ## Package time: `Duration.String` -/

/-- Go `time.Duration`: a count of nanoseconds (an int64 in Go). -/
abbrev Duration := Int

def Microsecond : Nat := 1000
def Millisecond : Nat := 1000 * Microsecond
def Second : Nat := 1000 * Millisecond

/-- Loop of `fmtFrac`: `i` digits still to visit, `v` the value, `print` set
    once a nonzero digit was seen, `buf` the characters written so far (the
    tail of Go's byte array, filled from the right). -/
def fmtFracLoop : Nat → Nat → Bool → List Char → List Char × Nat × Bool
  | 0, v, print, buf => (buf, v, print)
  | i + 1, v, print, buf =>
    let digit := v % 10
    let print := print || digit != 0
    let buf := if print then Nat.digitChar digit :: buf else buf
    fmtFracLoop i (v / 10) print buf

/-- Go `time.fmtFrac`: writes the fraction of `v / 10^prec` in front of `buf`,
    without trailing zeros, and returns `v / 10^prec` with it. -/
def fmtFrac (buf : List Char) (v : Nat) (prec : Nat) : List Char × Nat :=
  let (buf, v, print) := fmtFracLoop prec v false buf
  (if print then '.' :: buf else buf, v)

/-- Loop of `fmtInt` (`for v > 0`); the fuel is never exhausted when it
    starts at `v`. -/
def fmtIntLoop : Nat → Nat → List Char → List Char
  | 0, _, buf => buf
  | fuel + 1, v, buf =>
    if v > 0 then fmtIntLoop fuel (v / 10) (Nat.digitChar (v % 10) :: buf) else buf

/-- Go `time.fmtInt`: writes `v` in decimal in front of `buf`. -/
def fmtInt (buf : List Char) (v : Nat) : List Char :=
  if v = 0 then '0' :: buf else fmtIntLoop v v buf

/-- Go `Duration.format`: the characters of `Duration.String()`. -/
def Duration.format (d : Duration) : List Char :=
  let u := d.natAbs
  let neg := decide (d < 0)
  if u < Second then
    let buf := ['s']
    if u = 0 then
      '0' :: buf
    else
      let (prec, buf) :=
        if u < Microsecond then (0, 'n' :: buf)
        else if u < Millisecond then (3, 'µ' :: buf)
        else (6, 'm' :: buf)
      let (buf, u) := fmtFrac buf u prec
      let buf := fmtInt buf u
      if neg then '-' :: buf else buf
  else
    let buf := ['s']
    let (buf, u) := fmtFrac buf u 9
    let buf := fmtInt buf (u % 60)
    let u := u / 60
    let buf :=
      if u > 0 then
        let buf := fmtInt ('m' :: buf) (u % 60)
        let u := u / 60
        if u > 0 then fmtInt ('h' :: buf) u else buf
      else buf
    if neg then '-' :: buf else buf

/-- Go `Duration.String()`, which is how `%v` prints a duration. -/
def Duration.String (d : Duration) : String := ⟨Duration.format d⟩

/-! ## Package fmt: `Sprintf`

The operands `query_event.go` passes to `Sprintf` are strings and one
duration.  The model spells out what `doPrintf` does with literal text, with
the verbs `%v` and `%s` on an operand, with `%%`, with a lone `%` at the end
of the format and with a verb that finds no operand left.  What `fmt` prints
from any other directive on (flags, width, precision, argument index, another
verb on an operand) is left to a parameter, `FmtLib.directive`, about which
nothing is assumed. -/

/-- An operand of `Sprintf`, by its dynamic type. -/
inductive Arg where
  | str (s : String)
  | duration (d : Duration)
deriving DecidableEq

/-- Go `reflect.TypeOf(arg).String()`. -/
def Arg.typeName : Arg → String
  | .str _ => "string"
  | .duration _ => "time.Duration"

/-- What `printArg` writes for the operand under `%v` or `%s` without flags:
    a string as it is, a duration through its `String` method. -/
def Arg.plain : Arg → String
  | .str s => s
  | .duration d => d.String

/-- The part of `fmt` that is not spelled out: `directive rest argNum a` is
    what `doPrintf` appends from the directive whose text after the `%` is
    `rest` up to the end of the format, `argNum` operands of `a` being
    used. -/
structure FmtLib where
  directive : List Char → Nat → List Arg → List Char

/-- Loop over the operands that were not used, in the `%!(EXTRA ...)`
    report. -/
def extraArgs : Bool → List Arg → List Char
  | _, [] => []
  | first, arg :: rest =>
    (if first then [] else ", ".data) ++ arg.typeName.data ++ '=' :: arg.plain.data
      ++ extraArgs false rest

/-- End of `doPrintf`: the report of operands left over (the model never sets
    `reordered`). -/
def extra (a : List Arg) (argNum : Nat) : List Char :=
  if argNum < a.length then "%!(EXTRA ".data ++ extraArgs true (a.drop argNum) ++ [')'] else []

/-- A character that starts a flag, a width, a precision or an argument
    index. -/
def isDirectiveChar (c : Char) : Bool :=
  c == '#' || c == '+' || c == '-' || c == ' ' || c == '.' || c == '[' || c == '*' || c.isDigit

/-- Go `(*pp).doPrintf`, on the rest of the format and the number of operands
    used. Literal text is copied one character at a time. -/
def doPrintf (lib : FmtLib) (a : List Arg) : List Char → Nat → List Char
  | [], argNum => extra a argNum
  | c :: rest, argNum =>
    if c != '%' then
      c :: doPrintf lib a rest argNum
    else
      match rest with
      | [] => "%!(NOVERB)".data ++ extra a argNum
      | verb :: rest =>
        if verb == '%' then
          '%' :: doPrintf lib a rest argNum
        else if isDirectiveChar verb then
          lib.directive (verb :: rest) argNum a
        else
          match a[argNum]? with
          | none => "%!".data ++ verb :: "(MISSING)".data ++ doPrintf lib a rest argNum
          | some arg =>
            if verb == 'v' || verb == 's' then
              arg.plain.data ++ doPrintf lib a rest (argNum + 1)
            else
              lib.directive (verb :: rest) argNum a

/-- Go `fmt.Sprintf(format, a...)`. -/
def Sprintf (lib : FmtLib) (format : String) (a : List Arg) : String :=
  ⟨doPrintf lib a format.data 0⟩

/-! ## Package logger: declarations that `query_event.go` uses

`EventMeta`, `Flag`, `TextFormatter`, `JSONObj`, `Milliseconds` and the
constants below are declared in files of the package other than
`query_event.go`. -/

/-- Go `type Flag string`, the category tag of an event. -/
abbrev Flag := String

/-- Modelled from the spec: the constant `Query`, the flag of a query event;
    its declaration is not in `query_event.go` and the spec names the tag
    "query". -/
def Query : Flag := "query"

/-- Modelled from the spec: the constant `RuneSpace`, the single space that
    the spec says separates the parts of the text rendering. -/
def RuneSpace : Char := ' '

/-- Modelled from the spec: the colour tags handed to `Colorize`; `ColorRed`
    is the red tag, `other` stands for every other tag. -/
inductive AnsiColor where
  | ColorRed
  | other (code : String)
deriving DecidableEq

/-- Modelled from the spec: the formatter capability, an interface with the
    one method `Colorize(text, colorTag) string`. -/
structure Formatter where
  Colorize : String → AnsiColor → String

/-- A value of the interface type `TextFormatter`: `none` is the nil
    interface (no formatter supplied), `some f` holds an implementation. -/
abbrev TextFormatter := Option Formatter

/-- A Go `error` value that is not nil, known by its message. -/
structure GoError where
  msg : String
deriving DecidableEq

/-- Modelled from the spec: a Go `map[string]string` as `EventMeta` keeps it
    for labels and annotations; `none` is the nil map of an event that was
    never written to. -/
abbrev StringMap := Option (String → Option String)

/-- Modelled from the spec: `EventMeta`, the attributes every event carries
    (section 3: timestamp, flag, entity, headings, labels, annotations). -/
structure EventMeta where
  ts : Int
  flag : Flag
  entity : String
  headings : List String
  labels : StringMap
  annotations : StringMap

/-- Modelled from the spec: `NewEventMeta(flag)`; the timestamp defaults to
    the creation time `now`, everything else is unset. -/
def NewEventMeta (now : Int) (flag : Flag) : EventMeta :=
  { ts := now, flag := flag, entity := "", headings := [], labels := none, annotations := none }

/-- Modelled from the spec: `(*EventMeta).SetEntity`, the setter of the
    entity slot. -/
def EventMeta.SetEntity (em : EventMeta) (value : String) : EventMeta :=
  { em with entity := value }

/-- Modelled from the spec: `(*EventMeta).Entity`, the accessor of the entity
    slot. -/
def EventMeta.Entity (em : EventMeta) : String := em.entity

/-- Go `m[key]` with the comma-ok form on a `map[string]string`: nothing is
    found in a nil map. -/
def mapLookup (m : StringMap) (key : String) : Option String :=
  match m with
  | none => none
  | some entries => entries key

/-- Modelled from the spec: a write `m[key] = value` as `EventMeta` does it:
    the map is created on the first write, and the last write to a key
    wins. -/
def mapSet (m : StringMap) (key value : String) : StringMap :=
  some (fun k => if k = key then some value else mapLookup m k)

/-- Modelled from the spec: `(*EventMeta).AddLabelValue`, the add-one-label
    method. -/
def EventMeta.AddLabelValue (em : EventMeta) (key value : String) : EventMeta :=
  { em with labels := mapSet em.labels key value }

/-- Modelled from the spec: `(*EventMeta).AddAnnotationValue`, the
    add-one-annotation method. -/
def EventMeta.AddAnnotationValue (em : EventMeta) (key value : String) : EventMeta :=
  { em with annotations := mapSet em.annotations key value }

/-- Modelled from the spec: `(*EventMeta).Labels`, the label map accessor. -/
def EventMeta.Labels (em : EventMeta) : StringMap := em.labels

/-- Modelled from the spec: `(*EventMeta).Annotations`, the annotation map
    accessor. -/
def EventMeta.Annotations (em : EventMeta) : StringMap := em.annotations

/-- Modelled from the spec: `(*EventMeta).Flag`, the flag accessor. -/
def EventMeta.Flag (em : EventMeta) : Flag := em.flag

/-- Modelled from the spec: `Milliseconds(d)`, the duration as a number of
    milliseconds. The spec fixes no rounding rule; the model is the exact
    quotient, which is what every rule gives on a whole number of
    milliseconds. -/
def Milliseconds (d : Duration) : ℚ := (d : ℚ) / 1000000

/-- Modelled from the spec: the shared name of the error field of the JSON
    rendering. -/
def JSONFieldErr : String := "err"

/-- Modelled from the spec: the shared name of the elapsed field of the JSON
    rendering. -/
def JSONFieldElapsed : String := "elapsed"

/-- A value stored in a `JSONObj` (Go `interface{}`) by `WriteJSON`: `null`
    is the nil interface. -/
inductive JSONValue where
  | null
  | str (s : String)
  | error (err : GoError)
  | number (x : ℚ)
deriving DecidableEq

/-- A Go `error` converted to `interface{}`: nil stays nil. -/
def JSONValue.ofErr : Option GoError → JSONValue
  | none => .null
  | some err => .error err

/-- Go `type JSONObj = map[string]interface{}`, as the list of the entries of
    a map literal (Go rejects a literal with a repeated constant key). -/
abbrev JSONObj := List (String × JSONValue)

/-- The keys of the map. -/
def JSONObj.keys (o : JSONObj) : List String := o.map Prod.fst

/-- Go `o[key]` with the comma-ok form: the value stored under `key`. -/
def JSONObj.get (o : JSONObj) (key : String) : Option JSONValue :=
  (o.find? (fun kv => kv.1 == key)).map Prod.snd

/-! ## Package logger: `query_event.go` -/

/-- The struct `QueryEvent` (lines 36-45). The embedded `*EventMeta` is the
    one `NewQueryEvent` allocates: the event owns it and it is not nil. -/
structure QueryEvent where
  meta : EventMeta
  engine : String
  queryLabel : String
  body : String
  elapsed : Duration
  err : Option GoError

/-- An event offered to a listener (Go `Event`, an interface): a
    `*QueryEvent`, or a value of any other variant `α`. -/
inductive Event (α : Type) where
  | query (e : QueryEvent)
  | other (a : α)

/-- `NewQueryEvent` (lines 18-25). -/
def NewQueryEvent (now : Int) (body : String) (elapsed : Duration) : QueryEvent :=
  { meta := NewEventMeta now Query, engine := "", queryLabel := "", body := body,
    elapsed := elapsed, err := none }

/-- `NewQueryEventListener` (lines 27-34). A callback acts on a state `σ`
    (whatever it writes to); the listener returned runs it on a `*QueryEvent`
    and does nothing otherwise. -/
def NewQueryEventListener {α σ : Type} (listener : QueryEvent → σ → σ) :
    Event α → σ → σ :=
  fun e s =>
    match e with
    | .query typed => listener typed s
    | .other _ => s

/-- `WithEngine` (lines 77-81). -/
def QueryEvent.WithEngine (e : QueryEvent) (engine : String) : QueryEvent :=
  { e with engine := engine }

/-- `Engine` (lines 83-86). -/
def QueryEvent.Engine (e : QueryEvent) : String := e.engine

/-- `SetEntity`, promoted to `*QueryEvent` from the embedded `*EventMeta`. -/
def QueryEvent.SetEntity (e : QueryEvent) (value : String) : QueryEvent :=
  { e with meta := e.meta.SetEntity value }

/-- `Entity`, promoted to `QueryEvent` from the embedded `*EventMeta`. -/
def QueryEvent.Entity (e : QueryEvent) : String := e.meta.Entity

/-- `WithDatabase` (lines 88-92). -/
def QueryEvent.WithDatabase (e : QueryEvent) (db : String) : QueryEvent :=
  e.SetEntity db

/-- `Database` (lines 94-97). -/
def QueryEvent.Database (e : QueryEvent) : String := e.Entity

/-- `WithQueryLabel` (lines 99-103). -/
def QueryEvent.WithQueryLabel (e : QueryEvent) (queryLabel : String) : QueryEvent :=
  { e with queryLabel := queryLabel }

/-- `QueryLabel` (lines 105-108). -/
def QueryEvent.QueryLabel (e : QueryEvent) : String := e.queryLabel

/-- `WithBody` (lines 110-114). -/
def QueryEvent.WithBody (e : QueryEvent) (body : String) : QueryEvent :=
  { e with body := body }

/-- `Body` (lines 116-119). -/
def QueryEvent.Body (e : QueryEvent) : String := e.body

/-- `WithElapsed` (lines 121-125). -/
def QueryEvent.WithElapsed (e : QueryEvent) (elapsed : Duration) : QueryEvent :=
  { e with elapsed := elapsed }

/-- `Elapsed` (lines 127-130). -/
def QueryEvent.Elapsed (e : QueryEvent) : Duration := e.elapsed

/-- `WithErr` (lines 132-136). -/
def QueryEvent.WithErr (e : QueryEvent) (err : Option GoError) : QueryEvent :=
  { e with err := err }

/-- `Err` (lines 138-141). -/
def QueryEvent.Err (e : QueryEvent) : Option GoError := e.err

/-- `WithHeadings` (lines 47-51). -/
def QueryEvent.WithHeadings (e : QueryEvent) (headings : List String) : QueryEvent :=
  { e with meta := { e.meta with headings := headings } }

/-- `WithLabel` (lines 53-57). -/
def QueryEvent.WithLabel (e : QueryEvent) (key value : String) : QueryEvent :=
  { e with meta := e.meta.AddLabelValue key value }

/-- `WithAnnotation` (lines 59-63). -/
def QueryEvent.WithAnnotation (e : QueryEvent) (key value : String) : QueryEvent :=
  { e with meta := e.meta.AddAnnotationValue key value }

/-- `WithFlag` (lines 65-69). -/
def QueryEvent.WithFlag (e : QueryEvent) (flag : Flag) : QueryEvent :=
  { e with meta := { e.meta with flag := flag } }

/-- `WithTimestamp` (lines 71-75). -/
def QueryEvent.WithTimestamp (e : QueryEvent) (ts : Int) : QueryEvent :=
  { e with meta := { e.meta with ts := ts } }

/-- `Labels`, promoted to `QueryEvent` from the embedded `*EventMeta`. -/
def QueryEvent.Labels (e : QueryEvent) : StringMap := e.meta.Labels

/-- `Annotations`, promoted to `QueryEvent` from the embedded `*EventMeta`. -/
def QueryEvent.Annotations (e : QueryEvent) : StringMap := e.meta.Annotations

/-- `Flag`, promoted to `QueryEvent` from the embedded `*EventMeta`. -/
def QueryEvent.Flag (e : QueryEvent) : Flag := e.meta.Flag

/-- The instances of `QueryEvent` in memory, by address; `none` where there
    is no instance (as at the nil pointer). -/
abbrev Store := Nat → Option QueryEvent

/-- A call `p.With...(v)` of a builder through the pointer `p`. Every builder
    of `query_event.go` has the shape
    `func (e *QueryEvent) With...(v) *QueryEvent { <update of *e>; return e }`:
    the call updates the instance at `p` in place and returns `p` with the
    new store; it panics (`none`) when `p` points to no instance. -/
def Store.build (s : Store) (p : Nat) (update : QueryEvent → QueryEvent) :
    Option (Nat × Store) :=
  match s p with
  | none => none
  | some e => some (p, Function.update s p (some (update e)))

/-- Lines 145-152 of `WriteText`: the bracketed tag. -/
def writeTag (lib : FmtLib) (e : QueryEvent) (buf : String) : String :=
  if e.queryLabel.length > 0 then
    let buf := buf.push RuneSpace
    if e.engine.length > 0 then
      buf ++ Sprintf lib "[%s:%s]" [.str e.engine, .str e.queryLabel]
    else
      buf ++ Sprintf lib "[%s]" [.str e.queryLabel]
  else
    buf

/-- Lines 153-158 of `WriteText`: the format of the elapsed segment. Calling
    `Colorize` on a nil `TextFormatter` is a nil dereference: the run panics
    and there is no format (`none`). -/
def elapsedFormat (tf : TextFormatter) (e : QueryEvent) : Option String :=
  match e.err with
  | none => some "(%v)"
  | some _ =>
    match tf with
    | none => none
    | some f => some ("(%v) " ++ f.Colorize "failed" AnsiColor.ColorRed)

/-- Lines 160-163 of `WriteText`: the body. -/
def writeBody (e : QueryEvent) (buf : String) : String :=
  if e.body.length > 0 then
    (buf.push RuneSpace) ++ TrimSpace e.body
  else
    buf

/-- Lines 153-159 of `WriteText`: the elapsed segment, the string that
    `fmt.Sprintf(format, e.elapsed)` returns. -/
def elapsedSegment (lib : FmtLib) (tf : TextFormatter) (e : QueryEvent) : Option String :=
  match elapsedFormat tf e with
  | none => none
  | some format => some (Sprintf lib format [.duration e.elapsed])

/-- `QueryEvent.WriteText` (lines 143-164): the contents of the buffer after
    the call, from its contents `buf` before; `none` when the call panics. -/
def QueryEvent.WriteText (lib : FmtLib) (e : QueryEvent) (tf : TextFormatter)
    (buf : String) : Option String :=
  let buf := writeTag lib e buf
  match elapsedSegment lib tf e with
  | none => none
  | some segment => some (writeBody e (buf ++ segment))

/-- `QueryEvent.WriteJSON` (lines 166-176). -/
def QueryEvent.WriteJSON (e : QueryEvent) : JSONObj :=
  [ ("engine", .str e.engine),
    ("database", .str e.Database),
    ("queryLabel", .str e.queryLabel),
    ("body", .str e.body),
    (JSONFieldErr, .ofErr e.err),
    (JSONFieldElapsed, .number (Milliseconds e.elapsed)) ]

/-! ## Package r2: `opt_log_response.go`

`OptOnResponse`, `NewEvent`, the `OptEvent...` options, `FlagResponse` and
`logger.MaybeTrigger` are declared outside `opt_log_response.go`.  The model
is of the listener that each option hands to `OptOnResponse`: what it
returns, what it leaves in the response, and the calls of
`logger.MaybeTrigger` it makes, in order. -/

/-- `maxLogBytes` (lines 13-17). -/
def maxLogBytes : Nat := 1 <<< 20

/-- A Go `byte`. -/
abbrev Byte := Fin 256

/-- Go `context.Context`, known by an identity and by whether it is
    cancelled. -/
structure Context where
  id : Nat
  cancelled : Bool
deriving DecidableEq

/-- Go `*http.Request`, not nil: the listener gets the request that was
    sent. -/
structure Request where
  url : String
  ctx : Context
deriving DecidableEq

/-- Go `io.ReadCloser`, as the body of a response, with its state: `content`
    is what is still to be read (the bytes after the read position),
    `readErr` the error that ends the stream after them, if there is one, and
    `closed` whether `Close` was called on it. -/
structure Body where
  content : List Byte
  readErr : Option GoError
  closed : Bool
deriving DecidableEq

/-- Go `http.Response`. -/
structure Response where
  statusCode : Nat
  body : Body
deriving DecidableEq

/-- Go `io.Copy(buffer, src)` into an empty buffer: the contents of the
    buffer afterwards, the error returned, and the source afterwards. The
    copy consumes the source: nothing is left to read from it. -/
def ioCopy (src : Body) : List Byte × Option GoError × Body :=
  (src.content, src.readErr, { src with content := [] })

/-- Go `Close()` on a body. It records the call; the listeners never read a
    body after closing it. -/
def Body.Close (b : Body) : Body :=
  { b with closed := true }

/-- Go `ioutil.NopCloser(bytes.NewReader(b))`: a new reader, at the start of
    `b`, not closed. -/
def bytesReader (b : List Byte) : Body :=
  { content := b, readErr := none, closed := false }

/-- Modelled from the spec: an option handed to `NewEvent`, known by its name
    and its argument; the request, response and elapsed metadata of section
    6, and the body. The response is a pointer, nil (`none`) or not. -/
inductive EventOption where
  | OptEventRequest (req : Request)
  | OptEventResponse (res : Option Response)
  | OptEventBody (body : List Byte)
  | OptEventElapsed (elapsed : Duration)
deriving DecidableEq

/-- Modelled from the spec: the event of package r2, known by the flag and
    the options it was built with. -/
structure R2Event where
  flag : Flag
  options : List EventOption
deriving DecidableEq

/-- Modelled from the spec: `NewEvent(flag, options...)`. -/
def NewEvent (flag : Flag) (options : List EventOption) : R2Event :=
  { flag := flag, options := options }

/-- Modelled from the spec: the constant `FlagResponse`, the flag of the
    "response" event. -/
def FlagResponse : Flag := "response"

/-- The bodies attached to an event with `OptEventBody`. -/
def R2Event.bodies (ev : R2Event) : List (List Byte) :=
  ev.options.filterMap fun o =>
    match o with
    | .OptEventBody body => some body
    | _ => none

/-- Go `logger.Triggerable`, an interface: nil (`none`) or a named
    dispatcher. -/
abbrev Triggerable := Option String

/-- One call `logger.MaybeTrigger(ctx, log, event)`. -/
structure TriggerCall where
  ctx : Context
  log : Triggerable
  event : R2Event
deriving DecidableEq

/-- What a call of a listener leaves behind. -/
structure Outcome where
  /-- the error returned -/
  ret : Option GoError
  /-- the response, as the call leaves it -/
  res : Option Response
  /-- the body the response came with, as the call leaves it (nothing when
      there was no response) -/
  original : Option Body
  /-- the calls of `logger.MaybeTrigger`, in order -/
  triggered : List TriggerCall
deriving DecidableEq

/-- Go `t.Sub(u)` on times counted in nanoseconds: the difference, kept
    within the range of an int64. -/
def timeSub (t u : Int) : Duration :=
  max (-(2 ^ 63)) (min (2 ^ 63 - 1) (t - u))

/-- The listener of `OptLogResponse` (lines 19-34); `now` is what
    `time.Now()` returns. -/
def OptLogResponse (log : Triggerable) (now : Int) (req : Request) (res : Option Response)
    (started : Int) (err : Option GoError) : Outcome :=
  match err with
  | some e =>
    { ret := some e, res := res, original := res.map Response.body, triggered := [] }
  | none =>
    let event := NewEvent FlagResponse
      [.OptEventRequest req, .OptEventResponse res, .OptEventElapsed (timeSub now started)]
    { ret := none, res := res, original := res.map Response.body,
      triggered := [{ ctx := req.ctx, log := log, event := event }] }

/-- The listener of `OptLogResponseWithBody` (lines 36-64); `none` when the
    call panics (`res.Body` on a nil response). The deferred
    `res.Body.Close()` of line 44 is bound to the body the response came
    with and runs when the call returns: that body is closed on every path
    after line 44, also when line 52 has put another reader in `res.Body`. -/
def OptLogResponseWithBody (log : Triggerable) (now : Int) (req : Request)
    (res : Option Response) (started : Int) (err : Option GoError) : Option Outcome :=
  match err with
  | some e =>
    some { ret := some e, res := res, original := res.map Response.body, triggered := [] }
  | none =>
    match res with
    | none => none
    | some r =>
      let (buffer, copyErr, drained) := ioCopy r.body
      match copyErr with
      | some e =>
        some { ret := some e, res := some { r with body := drained.Close },
               original := some drained.Close, triggered := [] }
      | none =>
        let r := { r with body := bytesReader buffer }
        let event := NewEvent FlagResponse
          [.OptEventRequest req, .OptEventResponse (some r), .OptEventBody buffer,
            .OptEventElapsed (timeSub now started)]
        some { ret := none, res := some r, original := some drained.Close,
               triggered := [{ ctx := req.ctx, log := log, event := event }] }

/-! ## The text rendering in the words of the spec -/

/-- The bracketed tag of the text rendering as section 4.4 words it: nothing
    for an empty query label; otherwise a single space, then `[engine:label]`
    when the engine is set, else `[label]`. -/
def tagText (e : QueryEvent) : String :=
  if e.queryLabel = "" then ""
  else if e.engine = "" then " [" ++ e.queryLabel ++ "]"
  else " [" ++ e.engine ++ ":" ++ e.queryLabel ++ "]"

/-- The elapsed parenthetical `(<elapsed>)`, the duration printed as `%v`
    prints it. -/
def elapsedText (e : QueryEvent) : String :=
  "(" ++ e.elapsed.String ++ ")"

/-- The body part of the text rendering as section 4.4 words it: nothing for
    an empty body; otherwise a single space, then the body trimmed. -/
def bodyText (e : QueryEvent) : String :=
  if e.body = "" then "" else " " ++ TrimSpace e.body

/-- The two events agree on the five fields of the query variant: engine,
    queryLabel, body, elapsed and err. -/
def sameVariantFields (a b : QueryEvent) : Prop :=
  a.engine = b.engine ∧ a.queryLabel = b.queryLabel ∧ a.body = b.body ∧
    a.elapsed = b.elapsed ∧ a.err = b.err

/-! ## Concrete inputs -/

/-- An instance of the part of `fmt` that the model leaves open, one that
    prints nothing; the formats below never reach it. -/
def silentLib : FmtLib := ⟨fun _ _ _ => []⟩

/-- A formatter that wraps the text in ANSI escape codes. -/
def ansiFormatter : Formatter := ⟨fun text _ => "\x1b[31m" ++ text ++ "\x1b[0m"⟩

/-- A formatter whose styling ends in a percent sign. -/
def percentFormatter : Formatter := ⟨fun text _ => text ++ " 100%"⟩

/-- The event of section 8: engine "postgres", query label "get_user",
    elapsed 15ms, no error, no body. -/
def getUserEvent (now : Int) : QueryEvent :=
  ((NewQueryEvent now "" 15000000).WithEngine "postgres").WithQueryLabel "get_user"

/-- A failed query without a label: body "select 1", elapsed 15ms. -/
def failedEvent : QueryEvent :=
  (NewQueryEvent 0 "select 1" 15000000).WithErr (some ⟨"timeout"⟩)

/-- A failed query with a label and an engine. -/
def failedGetUser : QueryEvent :=
  (getUserEvent 0).WithErr (some ⟨"timeout"⟩)

/-- A query whose body is white space only. -/
def blankBodyEvent : QueryEvent :=
  (NewQueryEvent 0 " \t\n" 1500000).WithQueryLabel "ping"

/-- A failed query with an engine but no label, and a body to trim. -/
def unlabelledEvent : QueryEvent :=
  ((NewQueryEvent 0 "  select 1 \n" 2000000000).WithEngine "postgres").WithErr (some ⟨"timeout"⟩)

/-- A request to a vault server. -/
def sampleRequest : Request :=
  { url := "https://vault.local/v1/secret/data/app", ctx := { id := 1, cancelled := false } }

/-- A response body of one byte more than `maxLogBytes`. -/
def oversizeBody : Body :=
  { content := List.replicate (maxLogBytes + 1) 0, readErr := none, closed := false }

/-! ## Lemmas on strings and on `Sprintf` -/

theorem length_pos_iff_ne_empty (s : String) : 0 < s.length ↔ s ≠ "" := by
  rw [Ne, String.ext_iff]
  show 0 < s.data.length ↔ ¬ s.data = []
  rw [List.length_pos]

theorem fmtIntLoop_succ_fuel :
    ∀ (fuel v : Nat) (buf : List Char), v ≤ fuel →
      fmtIntLoop (fuel + 1) v buf = fmtIntLoop fuel v buf := by
  intro fuel
  induction fuel with
  | zero =>
    intro v buf hv
    have h0 : v = 0 := Nat.le_zero.mp hv
    subst h0
    simp [fmtIntLoop]
  | succ fuel ih =>
    intro v buf hv
    have e1 : fmtIntLoop (fuel + 1 + 1) v buf
        = if v > 0 then fmtIntLoop (fuel + 1) (v / 10) (Nat.digitChar (v % 10) :: buf)
          else buf := rfl
    have e2 : fmtIntLoop (fuel + 1) v buf
        = if v > 0 then fmtIntLoop fuel (v / 10) (Nat.digitChar (v % 10) :: buf)
          else buf := rfl
    rw [e1, e2]
    by_cases hpos : v > 0
    · rw [if_pos hpos, if_pos hpos]
      have hdiv : v / 10 ≤ fuel := by omega
      exact ih (v / 10) _ hdiv
    · rw [if_neg hpos, if_neg hpos]

/-- The fuel of `fmtIntLoop` is enough: any fuel from `v` on gives the result
    of `fmtInt`. -/
theorem fmtIntLoop_enough_fuel (v : Nat) (buf : List Char) :
    ∀ extra : Nat, fmtIntLoop (v + extra) v buf = fmtIntLoop v v buf := by
  intro extra
  induction extra with
  | zero => rfl
  | succ extra ih =>
    rw [← Nat.add_assoc, fmtIntLoop_succ_fuel (v + extra) v buf (Nat.le_add_right v extra), ih]

theorem doPrintf_cons_literal (lib : FmtLib) (a : List Arg) (n : Nat) (c : Char)
    (rest : List Char) (hc : c ≠ '%') :
    doPrintf lib a (c :: rest) n = c :: doPrintf lib a rest n := by
  conv_lhs => rw [doPrintf.eq_def]
  simp [hc]

theorem doPrintf_verb_v (lib : FmtLib) (a : List Arg) (n : Nat) (arg : Arg)
    (rest : List Char) (h : a[n]? = some arg) :
    doPrintf lib a ('%' :: 'v' :: rest) n = arg.plain.data ++ doPrintf lib a rest (n + 1) := by
  conv_lhs => rw [doPrintf.eq_def]
  simp [h, isDirectiveChar]

theorem doPrintf_verb_s (lib : FmtLib) (a : List Arg) (n : Nat) (arg : Arg)
    (rest : List Char) (h : a[n]? = some arg) :
    doPrintf lib a ('%' :: 's' :: rest) n = arg.plain.data ++ doPrintf lib a rest (n + 1) := by
  conv_lhs => rw [doPrintf.eq_def]
  simp [h, isDirectiveChar]

theorem doPrintf_literal (lib : FmtLib) (a : List Arg) (n : Nat) (t : List Char) :
    ∀ s : List Char, '%' ∉ s → doPrintf lib a (s ++ t) n = s ++ doPrintf lib a t n := by
  intro s
  induction s with
  | nil => intro _; rfl
  | cons c s ih =>
    intro h
    have hc : c ≠ '%' := fun hc => h (by simp [hc])
    have hs : '%' ∉ s := fun hs => h (by simp [hs])
    rw [List.cons_append, doPrintf_cons_literal lib a n c _ hc, ih hs, List.cons_append]

theorem Sprintf_tag_engine (lib : FmtLib) (x y : String) :
    Sprintf lib "[%s:%s]" [.str x, .str y] = "[" ++ x ++ ":" ++ y ++ "]" := by
  apply String.ext
  show doPrintf lib [.str x, .str y] ['[', '%', 's', ':', '%', 's', ']'] 0 = _
  rw [doPrintf_cons_literal _ _ _ _ _ (by decide), doPrintf_verb_s lib [.str x, .str y] 0 (.str x) _ rfl,
    doPrintf_cons_literal _ _ _ _ _ (by decide), doPrintf_verb_s lib [.str x, .str y] 1 (.str y) _ rfl,
    doPrintf_cons_literal _ _ _ _ _ (by decide)]
  simp [doPrintf, extra, Arg.plain, String.data_append]

theorem Sprintf_tag (lib : FmtLib) (y : String) :
    Sprintf lib "[%s]" [.str y] = "[" ++ y ++ "]" := by
  apply String.ext
  show doPrintf lib [.str y] ['[', '%', 's', ']'] 0 = _
  rw [doPrintf_cons_literal _ _ _ _ _ (by decide), doPrintf_verb_s lib [.str y] 0 (.str y) _ rfl,
    doPrintf_cons_literal _ _ _ _ _ (by decide)]
  simp [doPrintf, extra, Arg.plain, String.data_append]

theorem Sprintf_elapsed_prefix (lib : FmtLib) (d : Duration) (c : String) :
    Sprintf lib ("(%v)" ++ c) [.duration d]
      = "(" ++ d.String ++ ")" ++ ⟨doPrintf lib [.duration d] c.data 1⟩ := by
  apply String.ext
  show doPrintf lib [.duration d] ('(' :: '%' :: 'v' :: ')' :: c.data) 0 = _
  rw [doPrintf_cons_literal _ _ _ _ _ (by decide), doPrintf_verb_v lib [.duration d] 0 (.duration d) _ rfl,
    doPrintf_cons_literal _ _ _ _ _ (by decide)]
  simp [Arg.plain, String.data_append]

theorem Sprintf_elapsed_plain (lib : FmtLib) (d : Duration) :
    Sprintf lib "(%v)" [.duration d] = "(" ++ d.String ++ ")" := by
  have h := Sprintf_elapsed_prefix lib d ""
  simpa [doPrintf, extra] using h

theorem Sprintf_elapsed_literal (lib : FmtLib) (d : Duration) (c : String)
    (h : '%' ∉ c.data) :
    Sprintf lib ("(%v) " ++ c) [.duration d] = "(" ++ d.String ++ ") " ++ c := by
  have h1 : doPrintf lib [.duration d] (' ' :: c.data ++ []) 1 = ' ' :: c.data ++ [] := by
    rw [doPrintf_literal lib _ 1 [] (' ' :: c.data) (by simpa using h)]; rfl
  rw [List.append_nil] at h1
  have h2 := Sprintf_elapsed_prefix lib d (" " ++ c)
  have e1 : "(%v)" ++ (" " ++ c) = "(%v) " ++ c := by
    apply String.ext; simp [String.data_append]
  have e2 : (" " ++ c).data = ' ' :: c.data := by simp [String.data_append]
  rw [e1, e2, h1] at h2
  rw [h2]
  apply String.ext; simp [String.data_append]

/-! ## Lemmas on `WriteText` -/

theorem writeTag_eq (lib : FmtLib) (e : QueryEvent) (buf : String) :
    writeTag lib e buf = buf ++ tagText e := by
  unfold writeTag tagText
  by_cases hl : e.queryLabel = ""
  · have h0 : ¬ (e.queryLabel.length > 0) := by
      rw [gt_iff_lt, length_pos_iff_ne_empty]; exact fun h => h hl
    rw [if_neg h0, if_pos hl]
    apply String.ext; simp [String.data_append]
  · have h0 : e.queryLabel.length > 0 := (length_pos_iff_ne_empty _).2 hl
    rw [if_pos h0, if_neg hl]
    by_cases he : e.engine = ""
    · have h1 : ¬ (e.engine.length > 0) := by
        rw [gt_iff_lt, length_pos_iff_ne_empty]; exact fun h => h he
      simp only [if_neg h1, if_pos he, Sprintf_tag]
      apply String.ext; simp [String.data_append, RuneSpace]
    · have h1 : e.engine.length > 0 := (length_pos_iff_ne_empty _).2 he
      simp only [if_pos h1, if_neg he, Sprintf_tag_engine]
      apply String.ext; simp [String.data_append, RuneSpace]

theorem writeBody_eq (e : QueryEvent) (buf : String) :
    writeBody e buf = buf ++ bodyText e := by
  unfold writeBody bodyText
  by_cases hb : e.body = ""
  · have h0 : ¬ (e.body.length > 0) := by
      rw [gt_iff_lt, length_pos_iff_ne_empty]; exact fun h => h hb
    rw [if_neg h0, if_pos hb]
    apply String.ext; simp [String.data_append]
  · have h0 : e.body.length > 0 := (length_pos_iff_ne_empty _).2 hb
    rw [if_pos h0, if_neg hb]
    apply String.ext; simp [String.data_append, RuneSpace]

theorem WriteText_eq (lib : FmtLib) (e : QueryEvent) (tf : TextFormatter) (buf : String) :
    e.WriteText lib tf buf
      = (elapsedSegment lib tf e).map (fun segment => buf ++ tagText e ++ segment ++ bodyText e) := by
  unfold QueryEvent.WriteText
  cases h : elapsedSegment lib tf e with
  | none => rfl
  | some segment => simp only [Option.map, writeBody_eq, writeTag_eq]

theorem elapsedSegment_nil_err (lib : FmtLib) (tf : TextFormatter) (e : QueryEvent)
    (h : e.err = none) : elapsedSegment lib tf e = some (elapsedText e) := by
  simp only [elapsedSegment, elapsedFormat, h, Sprintf_elapsed_plain, elapsedText]

theorem elapsedSegment_err (lib : FmtLib) (f : Formatter) (e : QueryEvent)
    (h : e.err ≠ none) :
    elapsedSegment lib (some f) e
      = some (Sprintf lib ("(%v) " ++ f.Colorize "failed" AnsiColor.ColorRed)
          [.duration e.elapsed]) := by
  cases herr : e.err with
  | none => exact absurd herr h
  | some err => simp only [elapsedSegment, elapsedFormat, herr]

theorem elapsedSegment_prefix (lib : FmtLib) (tf : TextFormatter) (e : QueryEvent)
    (htf : tf = none → e.err = none) :
    ∃ tail, elapsedSegment lib tf e = some (elapsedText e ++ tail) := by
  cases herr : e.err with
  | none =>
    refine ⟨"", ?_⟩
    rw [elapsedSegment_nil_err lib tf e herr]
    congr 1
    apply String.ext; simp [String.data_append]
  | some err =>
    cases tf with
    | none => rw [htf rfl] at herr; cases herr
    | some f =>
      have hne : e.err ≠ none := by rw [herr]; exact fun h => by cases h
      refine ⟨⟨doPrintf lib [.duration e.elapsed]
        (" " ++ f.Colorize "failed" AnsiColor.ColorRed).data 1⟩, ?_⟩
      have h1 : "(%v) " ++ f.Colorize "failed" AnsiColor.ColorRed
          = "(%v)" ++ (" " ++ f.Colorize "failed" AnsiColor.ColorRed) := by
        apply String.ext; simp [String.data_append]
      rw [elapsedSegment_err lib f e hne, h1, Sprintf_elapsed_prefix, elapsedText]

/-! ## Lemmas on label and annotation maps -/

theorem mapLookup_mapSet (m : StringMap) (key value : String) :
    mapLookup (mapSet m key value) key = some value := by
  simp [mapLookup, mapSet]

theorem mapSet_mapSet (m : StringMap) (key v1 v2 : String) :
    mapSet (mapSet m key v1) key v2 = mapSet m key v2 := by
  unfold mapSet
  congr 1
  funext k
  by_cases h : k = key
  · simp [h]
  · simp [h, mapLookup]

/-! ## Lemmas on `fixSecretDataPrefix` -/

theorem TrimPrefix_slash_of_not (x : String) (h : HasPrefix x "/" = false) :
    TrimPrefix x "/" = x := by
  unfold TrimPrefix
  rw [h]; rfl

theorem HasPrefix_append_self (p y : String) : HasPrefix (p ++ y) p = true := by
  simp [HasPrefix, String.data_append]

theorem fix_of_no_slash (x : String) (h : HasPrefix x "/" = false) :
    fixSecretDataPrefix (fixSecretDataPrefix x) = fixSecretDataPrefix x := by
  have hx : fixSecretDataPrefix x
      = if (HasPrefix x "secret" && !HasPrefix x "secret/data") = true
        then "secret/data" ++ TrimPrefix x "secret/" else x := by
    unfold fixSecretDataPrefix
    simp only [TrimPrefix_slash_of_not x h]
  rw [hx]
  by_cases hc : (HasPrefix x "secret" && !HasPrefix x "secret/data") = true
  · rw [if_pos hc]
    have h1 : HasPrefix ("secret/data" ++ TrimPrefix x "secret/") "/" = false := by
      show (['/'].isPrefixOf ("secret/data" ++ TrimPrefix x "secret/").data) = false
      rw [String.data_append]
      rfl
    have h2 : HasPrefix ("secret/data" ++ TrimPrefix x "secret/") "secret/data" = true :=
      HasPrefix_append_self _ _
    unfold fixSecretDataPrefix
    simp only [TrimPrefix_slash_of_not _ h1, h2]
    simp
  · rw [if_neg hc]
    rw [hx, if_neg hc]

theorem TrimPrefix_cons_slash (t : List Char) :
    TrimPrefix ⟨'/' :: t⟩ "/" = ⟨t⟩ := by
  unfold TrimPrefix
  have h : HasPrefix ⟨'/' :: t⟩ "/" = true := by
    show (['/'].isPrefixOf ('/' :: t)) = true
    simp
  rw [h]; rfl

theorem fix_cons_slash (t : List Char) :
    fixSecretDataPrefix ⟨'/' :: t⟩
      = if (HasPrefix ⟨t⟩ "secret" && !HasPrefix ⟨t⟩ "secret/data") = true
        then "secret/data" ++ TrimPrefix ⟨t⟩ "secret/" else ⟨t⟩ := by
  unfold fixSecretDataPrefix
  simp only [TrimPrefix_cons_slash]

theorem fix_cons_slash_ne (u : List Char) :
    fixSecretDataPrefix ⟨'/' :: u⟩ ≠ ⟨'/' :: u⟩ := by
  rw [fix_cons_slash]
  intro h
  have hd := congrArg String.data h
  by_cases hc : (HasPrefix ⟨u⟩ "secret" && !HasPrefix ⟨u⟩ "secret/data") = true
  · rw [if_pos hc, String.data_append] at hd
    have h0 := congrArg List.head? hd
    revert h0
    show some 's' = some '/' → False
    decide
  · rw [if_neg hc] at hd
    have hl := congrArg List.length hd
    simp at hl

/-! ## Lemmas on `Clean` and `Join` -/

theorem splitSlash_v1 (k : List Char) :
    splitSlash ('/' :: 'v' :: '1' :: '/' :: '/' :: k) = [] :: ['v', '1'] :: [] :: splitSlash k := by
  simp [splitSlash]

theorem foldl_cleanStep_plain (rooted : Bool) :
    ∀ (segs : List (List Char)) (out : List (List Char)),
      ['.', '.'] ∉ segs →
      segs.foldl (cleanStep rooted) out
        = out ++ segs.filter (fun seg => !(decide (seg = []) || decide (seg = ['.']))) := by
  intro segs
  induction segs with
  | nil => intro out _; simp
  | cons seg segs ih =>
    intro out h
    have hseg : seg ≠ ['.', '.'] := fun hs => h (by simp [hs])
    have hrest : ['.', '.'] ∉ segs := fun hs => h (by simp [hs])
    rw [List.foldl_cons, ih _ hrest]
    by_cases h0 : seg = [] ∨ seg = ['.']
    · have : cleanStep rooted out seg = out := by simp [cleanStep, h0]
      rw [this]
      rcases h0 with h0 | h0 <;> simp [h0, List.filter]
    · have : cleanStep rooted out seg = out ++ [seg] := by simp [cleanStep, h0, hseg]
      rw [this]
      push_neg at h0
      simp [List.filter, h0.1, h0.2]

theorem Join_v1 (x : String) :
    Join ["/v1/", x]
      = ⟨'/' :: joinSlash ((splitSlash x.data).foldl (cleanStep true) [['v', '1']])⟩ := by
  have hd : ("/v1/" ++ "/" ++ x).data = '/' :: 'v' :: '1' :: '/' :: '/' :: x.data := by
    simp [String.data_append]
  have hne : ("/v1/" ++ "/" ++ x) ≠ "" := by
    intro h
    have := congrArg String.data h
    rw [hd] at this
    cases this
  have hj : Join ["/v1/", x] = Clean ("/v1/" ++ "/" ++ x) := by
    have h0 : decide ("/v1/" = "") = false := by decide
    simp [Join, List.dropWhile, h0, stringsJoin]
  rw [hj]
  unfold Clean
  rw [if_neg hne]
  simp only [hd, splitSlash_v1]
  have hr : ((some '/' : Option Char) == some '/') = true := by decide
  simp only [List.head?, hr, if_true, List.foldl_cons]
  have s1 : cleanStep true [] [] = [] := by simp [cleanStep]
  have s2 : cleanStep true [] ['v', '1'] = [['v', '1']] := by decide
  have s3 : cleanStep true [['v', '1']] [] = [['v', '1']] := by simp [cleanStep]
  rw [s1, s2, s3]

theorem Join_v1_plain (x : String) (h1 : pathElements x ≠ [])
    (h2 : ['.', '.'] ∉ pathElements x) :
    Join ["/v1/", x] = "/v1/" ++ ⟨joinSlash (pathElements x)⟩ := by
  have h3 : ['.', '.'] ∉ splitSlash x.data := by
    intro h
    apply h2
    unfold pathElements
    rw [List.mem_filter]
    exact ⟨h, by decide⟩
  rw [Join_v1, foldl_cleanStep_plain true _ _ h3]
  apply String.ext
  show '/' :: joinSlash ([['v', '1']] ++ pathElements x) = "/v1/".data ++ joinSlash (pathElements x)
  cases hp : pathElements x with
  | nil => exact absurd hp h1
  | cons seg rest => rfl

/-! ## Lemmas on the listeners of package r2 -/

/-- For a response whose body reads without error, the listener of
    `OptLogResponseWithBody` triggers one event, and the body attached to it
    has the length of the response body. -/
theorem OptLogResponseWithBody_attached_length (log : Triggerable) (now started : Int)
    (req : Request) (statusCode : Nat) (content : List Byte) (closed : Bool) :
    (OptLogResponseWithBody log now req
        (some { statusCode := statusCode,
                body := { content := content, readErr := none, closed := closed } })
        started none).map
      (fun o => o.triggered.map fun call => call.event.bodies.map List.length)
      = some [[content.length]] := by
  simp [OptLogResponseWithBody, ioCopy, bytesReader, NewEvent, R2Event.bodies, List.filterMap]

/-! ## Claims -/

/-- C1, as the code has it: when err is non-nil and the string that
    `tf.Colorize("failed", ColorRed)` returns holds no percent sign, the
    elapsed segment is "(" + elapsed + ") " followed by that string, directly
    after the tag and before the body. (The string is spliced into the format
    of `Sprintf`.) -/
theorem C1_failed_marker_after_elapsed (lib : FmtLib) (f : Formatter) (e : QueryEvent)
    (buf : String) (herr : e.err ≠ none)
    (hpct : '%' ∉ (f.Colorize "failed" AnsiColor.ColorRed).data) :
    elapsedSegment lib (some f) e
        = some (elapsedText e ++ " " ++ f.Colorize "failed" AnsiColor.ColorRed) ∧
    e.WriteText lib (some f) buf
        = some (buf ++ tagText e ++ (elapsedText e ++ " " ++ f.Colorize "failed" AnsiColor.ColorRed)
            ++ bodyText e) := by
  have hseg : elapsedSegment lib (some f) e
      = some (elapsedText e ++ " " ++ f.Colorize "failed" AnsiColor.ColorRed) := by
    rw [elapsedSegment_err lib f e herr, Sprintf_elapsed_literal lib _ _ hpct, elapsedText]
    congr 1
    apply String.ext; simp [String.data_append]
  exact ⟨hseg, by rw [WriteText_eq, hseg]; rfl⟩

/-- C1 run on a failed query and a formatter of ANSI escape codes. -/
theorem C1_failed_marker_after_elapsed_witness :
    failedEvent.err ≠ none ∧
    '%' ∉ (ansiFormatter.Colorize "failed" AnsiColor.ColorRed).data ∧
    failedEvent.WriteText silentLib (some ansiFormatter) ""
      = some "(15ms) \x1b[31mfailed\x1b[0m select 1" :=
  ⟨by decide, by decide,
    (C1_failed_marker_after_elapsed silentLib ansiFormatter failedEvent "" (by decide)
      (by decide)).2.trans (by decide)⟩

/-- C1 as stated fails: with a formatter that returns "failed 100%" the
    elapsed segment is "(15ms) failed 100%!(NOVERB)", not "(15ms) failed 100%":
    `Sprintf` reads the percent sign as the start of a directive. -/
theorem C1_counterexample :
    failedEvent.err ≠ none ∧
    percentFormatter.Colorize "failed" AnsiColor.ColorRed = "failed 100%" ∧
    (∀ lib : FmtLib, elapsedSegment lib (some percentFormatter) failedEvent
      = some "(15ms) failed 100%!(NOVERB)") ∧
    (∀ lib : FmtLib, failedEvent.WriteText lib (some percentFormatter) ""
      = some "(15ms) failed 100%!(NOVERB) select 1") ∧
    "(15ms) failed 100%!(NOVERB)"
      ≠ elapsedText failedEvent ++ " " ++ percentFormatter.Colorize "failed" AnsiColor.ColorRed :=
  ⟨by decide, by decide, fun _ => rfl, fun _ => rfl, by decide⟩

/-- C2: for a non-empty queryLabel, whenever WriteText has a formatter to
    call (one is supplied, or err is nil), the text it appends is a single
    space, then "[engine:queryLabel]" for a non-empty engine and
    "[queryLabel]" for an empty one, then at once the elapsed
    parenthetical. -/
theorem C2_tag_then_elapsed (lib : FmtLib) (e : QueryEvent) (tf : TextFormatter)
    (buf : String) (hl : e.queryLabel ≠ "") (htf : tf = none → e.err = none) :
    ∃ rest, e.WriteText lib tf buf
      = some (buf ++ " "
          ++ (if e.engine = "" then "[" ++ e.queryLabel ++ "]"
              else "[" ++ e.engine ++ ":" ++ e.queryLabel ++ "]")
          ++ elapsedText e ++ rest) := by
  obtain ⟨tail, ht⟩ := elapsedSegment_prefix lib tf e htf
  refine ⟨tail ++ bodyText e, ?_⟩
  rw [WriteText_eq, ht, Option.map, tagText, if_neg hl]
  congr 1
  by_cases he : e.engine = ""
  · simp only [if_pos he]
    apply String.ext; simp [String.data_append]
  · simp only [if_neg he]
    apply String.ext; simp [String.data_append]

/-- C2 run on a failed query with label and engine, and on a query with a
    label only. -/
theorem C2_tag_then_elapsed_witness :
    failedGetUser.queryLabel ≠ "" ∧
    (∃ rest, failedGetUser.WriteText silentLib (some ansiFormatter) "> "
      = some ("> " ++ " " ++ "[postgres:get_user]" ++ "(15ms)" ++ rest)) ∧
    failedGetUser.WriteText silentLib (some ansiFormatter) "> "
      = some ">  [postgres:get_user](15ms) \x1b[31mfailed\x1b[0m" ∧
    blankBodyEvent.WriteText silentLib none "" = some " [ping](1.5ms) " :=
  ⟨by decide,
    C2_tag_then_elapsed silentLib failedGetUser (some ansiFormatter) "> " (by decide)
      (fun h => by cases h),
    by decide, by decide⟩

/-- C3: WriteJSON returns a mapping with exactly the six keys "engine",
    "database", "queryLabel", "body", JSONFieldErr and JSONFieldElapsed, all
    different, holding the engine, the EventMeta entity, the queryLabel, the
    untrimmed body, the err (nil when none was set, the error otherwise) and
    the elapsed duration in milliseconds; the error key is always there. -/
theorem C3_WriteJSON_six_fields (e : QueryEvent) :
    e.WriteJSON.keys = ["engine", "database", "queryLabel", "body", JSONFieldErr, JSONFieldElapsed] ∧
    e.WriteJSON.keys.Nodup ∧
    e.WriteJSON.get "engine" = some (.str e.engine) ∧
    e.WriteJSON.get "database" = some (.str e.meta.Entity) ∧
    e.WriteJSON.get "queryLabel" = some (.str e.queryLabel) ∧
    e.WriteJSON.get "body" = some (.str e.body) ∧
    e.WriteJSON.get JSONFieldErr
      = some (match e.err with
              | none => JSONValue.null
              | some err => JSONValue.error err) ∧
    e.WriteJSON.get JSONFieldElapsed = some (.number (Milliseconds e.elapsed)) ∧
    JSONFieldErr ∈ e.WriteJSON.keys := by
  refine ⟨rfl, ?_, rfl, rfl, rfl, rfl, ?_, rfl, ?_⟩
  · show ["engine", "database", "queryLabel", "body", JSONFieldErr, JSONFieldElapsed].Nodup
    decide
  · cases h : e.err <;>
      simp [QueryEvent.WriteJSON, JSONObj.get, List.find?, JSONFieldErr, JSONFieldElapsed,
        JSONValue.ofErr, h]
  · show JSONFieldErr ∈ ["engine", "database", "queryLabel", "body", JSONFieldErr, JSONFieldElapsed]
    decide

/-- C4: the Listener that NewQueryEventListener(f) returns has, on a
    *QueryEvent e, exactly the effect of one call f(e), and no effect on an
    event of another variant; with a callback that records its calls, the
    record is [e] in the first case and empty in the second. -/
theorem C4_listener_dispatch {α σ : Type} (f : QueryEvent → σ → σ) (e : QueryEvent)
    (a : α) (s : σ) :
    NewQueryEventListener f (Event.query e : Event α) s = f e s ∧
    NewQueryEventListener f (Event.other a) s = s ∧
    NewQueryEventListener (fun q calls => calls ++ [q]) (Event.query e : Event α) [] = [e] ∧
    NewQueryEventListener (fun q calls => calls ++ [q]) (Event.other a) [] = [] :=
  ⟨rfl, rfl, rfl, rfl⟩

/-- C5, as the code has it: with no formatter supplied (a nil
    TextFormatter), WriteText completes and writes the plain-text rendering
    exactly when err is nil; when err is non-nil it calls Colorize on the nil
    formatter and fails. -/
theorem C5_nil_formatter (lib : FmtLib) (e : QueryEvent) (buf : String) :
    e.WriteText lib none buf
      = if e.err = none then some (buf ++ tagText e ++ elapsedText e ++ bodyText e) else none := by
  by_cases h : e.err = none
  · rw [if_pos h, WriteText_eq, elapsedSegment_nil_err lib none e h]; rfl
  · rw [if_neg h]
    cases herr : e.err with
    | none => exact absurd herr h
    | some err => simp only [QueryEvent.WriteText, elapsedSegment, elapsedFormat, herr]

/-- C5 as stated fails: for a failed query, WriteText with a nil formatter
    does not complete, whatever the buffer. -/
theorem C5_counterexample :
    failedEvent.err = some ⟨"timeout"⟩ ∧
    ∀ (lib : FmtLib) (buf : String), failedEvent.WriteText lib none buf = none :=
  ⟨rfl, fun _ _ => rfl⟩

/-- C6 at the keys of the claim: fixSecretDataPrefix turns "secret/foo" and
    "/secret/foo" into "secret/datafoo", which is not prefixed with
    "secret/data/" (the separator after "data" is missing). -/
theorem C6_fixSecretDataPrefix_drops_separator :
    fixSecretDataPrefix "secret/foo" = "secret/datafoo" ∧
    fixSecretDataPrefix "/secret/foo" = "secret/datafoo" ∧
    HasPrefix (fixSecretDataPrefix "secret/foo") "secret/data/" = false ∧
    fixSecretDataPrefix "secret/foo" ≠ "secret/data/foo" := by
  decide

/-- C7: WithDatabase and Database use the entity slot of EventMeta: after
    WithDatabase(db) both Database() and Entity() return db; after
    SetEntity(x), Database() returns x and the "database" value of WriteJSON
    is x. -/
theorem C7_database_is_entity (e : QueryEvent) (db x : String) :
    (e.WithDatabase db).Database = db ∧
    (e.WithDatabase db).Entity = db ∧
    (e.SetEntity x).Database = x ∧
    (e.SetEntity x).WriteJSON.get "database" = some (.str x) ∧
    e.WithDatabase db = e.SetEntity db ∧
    e.Database = e.Entity :=
  ⟨rfl, rfl, rfl, rfl, rfl, rfl⟩


/-- C8: when err is nil, WriteText gives the same text for every formatter,
    the nil one included (it never consults it), and the elapsed segment is
    exactly "(" + elapsed + ")"; the event with engine "postgres", queryLabel
    "get_user", elapsed 15ms, nil err and empty body renders
    " [postgres:get_user](15ms)", which ends in "(15ms)", and its WriteJSON
    has engine "postgres", queryLabel "get_user", elapsed 15 and a nil err. -/
theorem C8_no_error_rendering (lib : FmtLib) (e : QueryEvent) (tf : TextFormatter)
    (buf : String) (now : Int) (h : e.err = none) :
    e.WriteText lib tf buf = e.WriteText lib none buf ∧
    elapsedSegment lib tf e = some ("(" ++ e.elapsed.String ++ ")") ∧
    e.WriteText lib tf buf
      = some (buf ++ tagText e ++ ("(" ++ e.elapsed.String ++ ")") ++ bodyText e) ∧
    (getUserEvent now).WriteText lib tf "" = some " [postgres:get_user](15ms)" ∧
    " [postgres:get_user](15ms)" = " [postgres:get_user]" ++ "(15ms)" ∧
    (getUserEvent now).WriteJSON.get "engine" = some (.str "postgres") ∧
    (getUserEvent now).WriteJSON.get "queryLabel" = some (.str "get_user") ∧
    (getUserEvent now).WriteJSON.get JSONFieldElapsed = some (.number 15) ∧
    (getUserEvent now).WriteJSON.get JSONFieldErr = some .null := by
  have hseg : ∀ tf, elapsedSegment lib tf e = some ("(" ++ e.elapsed.String ++ ")") :=
    fun tf => elapsedSegment_nil_err lib tf e h
  have hw : ∀ tf, e.WriteText lib tf buf
      = some (buf ++ tagText e ++ ("(" ++ e.elapsed.String ++ ")") ++ bodyText e) :=
    fun tf => by rw [WriteText_eq, hseg tf]; rfl
  refine ⟨by rw [hw tf, hw none], hseg tf, hw tf, ?_, by decide, rfl, rfl, ?_, rfl⟩
  · rw [WriteText_eq, elapsedSegment_nil_err lib tf _ rfl]
    show some ("" ++ tagText (getUserEvent 0) ++ elapsedText (getUserEvent 0)
      ++ bodyText (getUserEvent 0)) = _
    decide
  · show some (JSONValue.number (Milliseconds 15000000)) = some (.number 15)
    congr 2
    unfold Milliseconds
    norm_num

/-- C8 run on the event of section 8 with no formatter. -/
theorem C8_no_error_rendering_witness :
    (getUserEvent 0).err = none ∧
    (getUserEvent 0).WriteText silentLib none "" = some " [postgres:get_user](15ms)" :=
  ⟨rfl, (C8_no_error_rendering silentLib (getUserEvent 0) none "" 0 rfl).2.2.2.1⟩

/-- C9: for an empty queryLabel, whatever the engine, whenever WriteText has
    a formatter to call (one is supplied, or err is nil), the text it appends
    starts directly with the elapsed parenthetical "(" + elapsed + ")", with
    no bracketed tag and no leading space, and ends with the body part (a
    space and the trimmed body) when the body is non-empty; with a nil err
    nothing stands between the two. -/
theorem C9_no_tag_without_label (lib : FmtLib) (e : QueryEvent) (tf : TextFormatter)
    (buf : String) (hl : e.queryLabel = "") (htf : tf = none → e.err = none) :
    ∃ tail, e.WriteText lib tf buf
        = some (buf ++ ("(" ++ e.elapsed.String ++ ")") ++ tail
            ++ (if e.body = "" then "" else " " ++ TrimSpace e.body)) ∧
      (e.err = none → tail = "") := by
  cases herr : e.err with
  | none =>
    refine ⟨"", ?_, fun _ => rfl⟩
    rw [WriteText_eq, elapsedSegment_nil_err lib tf e herr, Option.map, tagText, if_pos hl,
      bodyText, elapsedText]
    congr 1
    apply String.ext; simp [String.data_append]
  | some err =>
    have htf2 : tf = none → e.err = none := htf
    obtain ⟨tail, ht⟩ := elapsedSegment_prefix lib tf e htf2
    refine ⟨tail, ?_, fun h => by cases h⟩
    rw [WriteText_eq, ht, Option.map, tagText, if_pos hl, bodyText, elapsedText]
    congr 1
    apply String.ext; simp [String.data_append]

/-- C9 run on a failed query that has an engine and no label. -/
theorem C9_no_tag_without_label_witness :
    unlabelledEvent.queryLabel = "" ∧ unlabelledEvent.engine = "postgres" ∧
    (∃ tail, unlabelledEvent.WriteText silentLib (some ansiFormatter) "> "
        = some ("> " ++ ("(" ++ unlabelledEvent.elapsed.String ++ ")") ++ tail
            ++ (if unlabelledEvent.body = "" then "" else " " ++ TrimSpace unlabelledEvent.body)) ∧
      (unlabelledEvent.err = none → tail = "")) ∧
    unlabelledEvent.WriteText silentLib (some ansiFormatter) "> "
      = some "> (2s) \x1b[31mfailed\x1b[0m select 1" :=
  ⟨rfl, rfl,
    C9_no_tag_without_label silentLib unlabelledEvent (some ansiFormatter) "> " rfl
      (fun h => by cases h),
    by decide⟩

/-- C10: whenever WriteText has a formatter to call (one is supplied, or err
    is nil), for a non-empty body, also one of white space only, the text it
    appends is the tag and the elapsed segment, then exactly one space, then
    the body with its leading and trailing white space trimmed; for an empty
    body it is the tag and the elapsed segment and nothing after. -/
theorem C10_body_after_elapsed (lib : FmtLib) (e : QueryEvent) (tf : TextFormatter)
    (buf : String) (htf : tf = none → e.err = none) :
    ∃ segment, elapsedSegment lib tf e = some segment ∧
      e.WriteText lib tf buf
        = some (if e.body = "" then buf ++ tagText e ++ segment
                else buf ++ tagText e ++ segment ++ " " ++ TrimSpace e.body) := by
  obtain ⟨tail, ht⟩ := elapsedSegment_prefix lib tf e htf
  refine ⟨_, ht, ?_⟩
  rw [WriteText_eq, ht, Option.map, bodyText]
  congr 1
  by_cases hb : e.body = ""
  · simp only [if_pos hb]
    apply String.ext; simp [String.data_append]
  · simp only [if_neg hb]
    apply String.ext; simp [String.data_append]

/-- C10 run on a body of white space only and on a body with white space at
    both ends. -/
theorem C10_body_after_elapsed_witness :
    (∃ segment, elapsedSegment silentLib none blankBodyEvent = some segment ∧
      blankBodyEvent.WriteText silentLib none ""
        = some (if blankBodyEvent.body = "" then "" ++ tagText blankBodyEvent ++ segment
                else "" ++ tagText blankBodyEvent ++ segment ++ " "
                  ++ TrimSpace blankBodyEvent.body)) ∧
    blankBodyEvent.body = " \t\n" ∧
    blankBodyEvent.WriteText silentLib none "" = some " [ping](1.5ms) " ∧
    unlabelledEvent.body = "  select 1 \n" ∧
    unlabelledEvent.WriteText silentLib (some ansiFormatter) ""
      = some "(2s) \x1b[31mfailed\x1b[0m select 1" ∧
    (getUserEvent 0).WriteText silentLib none "" = some " [postgres:get_user](15ms)" :=
  ⟨C10_body_after_elapsed silentLib blankBodyEvent none "" (fun _ => rfl),
    rfl, by decide, rfl, by decide, by decide⟩

/-- C11, as the code has it: err is advisory whenever a formatter is
    supplied. For two QueryEvents that differ only in err (one nil, one
    non-nil) WriteText and WriteJSON complete on both; the two mappings have
    the same keys and equal values under every key but the error field; the
    two texts are equal except for a marker inserted after the elapsed
    parenthetical, which is a space and Colorize("failed", ColorRed) when
    that string holds no percent sign. -/
theorem C11_err_is_advisory (lib : FmtLib) (f : Formatter) (e : QueryEvent) (err : GoError)
    (buf : String) :
    (∃ marker,
      (e.WithErr none).WriteText lib (some f) buf
        = some (buf ++ tagText e ++ elapsedText e ++ bodyText e) ∧
      (e.WithErr (some err)).WriteText lib (some f) buf
        = some (buf ++ tagText e ++ elapsedText e ++ marker ++ bodyText e) ∧
      ('%' ∉ (f.Colorize "failed" AnsiColor.ColorRed).data →
        marker = " " ++ f.Colorize "failed" AnsiColor.ColorRed)) ∧
    (e.WithErr none).WriteJSON.keys = (e.WithErr (some err)).WriteJSON.keys ∧
    (∀ key, key ≠ JSONFieldErr →
      (e.WithErr none).WriteJSON.get key = (e.WithErr (some err)).WriteJSON.get key) ∧
    (e.WithErr none).WriteJSON.get JSONFieldErr = some .null ∧
    (e.WithErr (some err)).WriteJSON.get JSONFieldErr = some (.error err) := by
  refine ⟨⟨⟨doPrintf lib [.duration e.elapsed]
      (" " ++ f.Colorize "failed" AnsiColor.ColorRed).data 1⟩, ?_, ?_, ?_⟩, rfl, ?_, rfl, rfl⟩
  · rw [WriteText_eq, elapsedSegment_nil_err lib (some f) _ rfl]
    rfl
  · have hne : (e.WithErr (some err)).err ≠ none := fun h => by cases h
    have h1 : "(%v) " ++ f.Colorize "failed" AnsiColor.ColorRed
        = "(%v)" ++ (" " ++ f.Colorize "failed" AnsiColor.ColorRed) := by
      apply String.ext; simp [String.data_append]
    rw [WriteText_eq, elapsedSegment_err lib f _ hne, h1, Sprintf_elapsed_prefix]
    show some (_ ++ tagText e ++ _ ++ bodyText e) = _
    congr 1
    apply String.ext
    simp [String.data_append, elapsedText, QueryEvent.WithErr]
  · intro hpct
    apply String.ext
    have h2 : (" " ++ f.Colorize "failed" AnsiColor.ColorRed).data
        = (' ' :: (f.Colorize "failed" AnsiColor.ColorRed).data) ++ [] := by
      simp [String.data_append]
    show doPrintf lib [.duration e.elapsed]
      (" " ++ f.Colorize "failed" AnsiColor.ColorRed).data 1 = _
    rw [h2, doPrintf_literal lib _ 1 [] _ (by simpa using hpct)]
    simp [doPrintf, extra, String.data_append]
  · intro key hk
    have hk2 : ("err" == key) = false := by
      rw [beq_eq_false_iff_ne]
      exact fun h => hk (by rw [← h]; rfl)
    simp only [QueryEvent.WriteJSON, JSONObj.get, List.find?, JSONFieldErr, JSONFieldElapsed,
      QueryEvent.WithErr, QueryEvent.Database, QueryEvent.Entity, hk2]

/-- C11 as stated fails: of two events that differ only in err, WriteText
    with a nil formatter completes on the one without err and fails on the
    one with err. -/
theorem C11_counterexample :
    failedGetUser = (getUserEvent 0).WithErr (some ⟨"timeout"⟩) ∧
    (getUserEvent 0).err = none ∧
    (∀ lib : FmtLib, (getUserEvent 0).WriteText lib none ""
      = some " [postgres:get_user](15ms)") ∧
    (∀ lib : FmtLib, failedGetUser.WriteText lib none "" = none) :=
  ⟨rfl, rfl, fun _ => rfl, fun _ => rfl⟩

/-- C12: each of WithEngine, WithQueryLabel, WithBody, WithElapsed and
    WithErr, called through a pointer p to an instance e, returns p itself
    with e updated in place, so calls chain; it never fails on an instance;
    and afterwards the matching accessor returns exactly the value given. -/
theorem C12_builders_return_receiver (s : Store) (p : Nat) (e : QueryEvent)
    (engine queryLabel body : String) (elapsed : Duration) (err : Option GoError) :
    Store.build (Function.update s p (some e)) p (fun x => x.WithEngine engine)
      = some (p, Function.update s p (some (e.WithEngine engine))) ∧
    Store.build (Function.update s p (some e)) p (fun x => x.WithQueryLabel queryLabel)
      = some (p, Function.update s p (some (e.WithQueryLabel queryLabel))) ∧
    Store.build (Function.update s p (some e)) p (fun x => x.WithBody body)
      = some (p, Function.update s p (some (e.WithBody body))) ∧
    Store.build (Function.update s p (some e)) p (fun x => x.WithElapsed elapsed)
      = some (p, Function.update s p (some (e.WithElapsed elapsed))) ∧
    Store.build (Function.update s p (some e)) p (fun x => x.WithErr err)
      = some (p, Function.update s p (some (e.WithErr err))) ∧
    ((Store.build (Function.update s p (some e)) p (fun x => x.WithEngine engine)).bind
        fun r => Store.build r.2 r.1 (fun x => x.WithQueryLabel queryLabel))
      = some (p, Function.update s p (some ((e.WithEngine engine).WithQueryLabel queryLabel))) ∧
    (e.WithEngine engine).Engine = engine ∧
    (e.WithQueryLabel queryLabel).QueryLabel = queryLabel ∧
    (e.WithBody body).Body = body ∧
    (e.WithElapsed elapsed).Elapsed = elapsed ∧
    (e.WithErr err).Err = err := by
  have hb : ∀ update : QueryEvent → QueryEvent,
      Store.build (Function.update s p (some e)) p update
        = some (p, Function.update s p (some (update e))) := by
    intro update
    simp [Store.build]
  refine ⟨hb _, hb _, hb _, hb _, hb _, ?_, rfl, rfl, rfl, rfl, rfl⟩
  rw [hb]
  simp [Store.build]

/-- C13: writing the same label twice leaves the event as writing it once;
    writing a key twice with different values leaves it as the last write
    alone, and Labels()[k] is the last value; the same for annotations; a
    label write leaves the annotations as they were and an annotation write
    leaves the labels as they were. -/
theorem C13_label_writes (e : QueryEvent) (k v v1 v2 : String) :
    (e.WithLabel k v).WithLabel k v = e.WithLabel k v ∧
    (e.WithLabel k v1).WithLabel k v2 = e.WithLabel k v2 ∧
    mapLookup ((e.WithLabel k v1).WithLabel k v2).Labels k = some v2 ∧
    QueryEvent.WithAnnotation ( QueryEvent.WithAnnotation e k v) k v
      = QueryEvent.WithAnnotation e k v ∧
    QueryEvent.WithAnnotation ( QueryEvent.WithAnnotation e k v1) k v2
      = QueryEvent.WithAnnotation e k v2 ∧
    mapLookup
        ( QueryEvent.WithAnnotation ( QueryEvent.WithAnnotation e k v1) k v2).Annotations k
      = some v2 ∧
    (e.WithLabel k v).Annotations = e.Annotations ∧
    ( QueryEvent.WithAnnotation e k v).Labels = e.Labels := by
  have hl : ∀ a b, (e.WithLabel k a).WithLabel k b = e.WithLabel k b := by
    intro a b
    simp only [QueryEvent.WithLabel, EventMeta.AddLabelValue, mapSet_mapSet]
  have ha : ∀ a b, QueryEvent.WithAnnotation ( QueryEvent.WithAnnotation e k a) k b
      = QueryEvent.WithAnnotation e k b := by
    intro a b
    simp only [ QueryEvent.WithAnnotation, EventMeta.AddAnnotationValue, mapSet_mapSet]
  refine ⟨hl v v, hl v1 v2, ?_, ha v v, ha v1 v2, ?_, rfl, rfl⟩
  · rw [hl]; exact mapLookup_mapSet _ _ _
  · rw [ha]; exact mapLookup_mapSet _ _ _

/-- C14 at a response body of maxLogBytes + 1 bytes: the listener of
    OptLogResponseWithBody attaches all maxLogBytes + 1 bytes to the event
    it triggers, more than maxLogBytes (the constant is declared and never
    applied). -/
theorem C14_oversize_body_attached :
    maxLogBytes = 1048576 ∧
    oversizeBody.content.length = maxLogBytes + 1 ∧
    (OptLogResponseWithBody none 0 sampleRequest
        (some { statusCode := 200, body := oversizeBody }) 0 none).map
      (fun o => o.triggered.map fun call => call.event.bodies.map List.length)
      = some [[maxLogBytes + 1]] ∧
    ¬ (maxLogBytes + 1 ≤ maxLogBytes) := by
  refine ⟨by decide, ?_, ?_, by omega⟩
  · simp only [oversizeBody, List.length_replicate]
  · have h := OptLogResponseWithBody_attached_length none 0 0 sampleRequest 200
      (List.replicate (maxLogBytes + 1) 0) false
    rw [List.length_replicate] at h
    exact h

/-- C15: NewQueryEvent(body, elapsed) has the flag Query, Body() is body
    unchanged, Elapsed() is elapsed, and engine, queryLabel and database are
    empty and err is nil. -/
theorem C15_NewQueryEvent_fields (now : Int) (body : String) (elapsed : Duration) :
    (NewQueryEvent now body elapsed).Flag = Query ∧
    (NewQueryEvent now body elapsed).Body = body ∧
    (NewQueryEvent now body elapsed).Elapsed = elapsed ∧
    (NewQueryEvent now body elapsed).Engine = "" ∧
    (NewQueryEvent now body elapsed).QueryLabel = "" ∧
    (NewQueryEvent now body elapsed).Database = "" ∧
    (NewQueryEvent now body elapsed).Err = none :=
  ⟨rfl, rfl, rfl, rfl, rfl, rfl, rfl⟩

/-- C16: on a successful response (err nil) whose body reads without error,
    the listener of OptLogResponseWithBody reads the body to its end, returns
    nil, triggers exactly one event, with the request's context, to which
    exactly the bytes read are attached, and leaves in res.Body a new reader,
    not closed, that yields the same bytes again without error, while the
    body the response came with is left consumed and closed; when reading the
    body fails it returns the read error and triggers no event, and res.Body
    stays the body it was, consumed and closed. -/
theorem C16_body_read_then_emitted (log : Triggerable) (now started : Int) (req : Request)
    (statusCode : Nat) (content : List Byte) (closed : Bool) :
    (∃ o event,
      OptLogResponseWithBody log now req
          (some { statusCode := statusCode,
                  body := { content := content, readErr := none, closed := closed } })
          started none = some o ∧
      o.ret = none ∧
      o.triggered = [{ ctx := req.ctx, log := log, event := event }] ∧
      event.bodies = [content] ∧
      event.flag = FlagResponse ∧
      event.options = [.OptEventRequest req,
        .OptEventResponse (some { statusCode := statusCode, body := bytesReader content }),
        .OptEventBody content, .OptEventElapsed (timeSub now started)] ∧
      o.res = some { statusCode := statusCode,
                     body := { content := content, readErr := none, closed := false } } ∧
      o.res.map (fun r => ((ioCopy r.body).1, (ioCopy r.body).2.1)) = some (content, none) ∧
      o.original = some { content := [], readErr := none, closed := true }) ∧
    (∀ readErr : GoError, ∃ o,
      OptLogResponseWithBody log now req
          (some { statusCode := statusCode,
                  body := { content := content, readErr := some readErr, closed := closed } })
          started none = some o ∧
      o.ret = some readErr ∧
      o.triggered = [] ∧
      o.res = some { statusCode := statusCode,
                     body := { content := [], readErr := some readErr, closed := true } } ∧
      o.original = some { content := [], readErr := some readErr, closed := true }) := by
  constructor
  · exact ⟨_, _, rfl, rfl, rfl, rfl, rfl, rfl, rfl, rfl, rfl⟩
  · intro readErr
    exact ⟨_, rfl, rfl, rfl, rfl, rfl⟩

/-- C17: when the incoming err is non-nil, the listeners of OptLogResponse
    and OptLogResponseWithBody return that err, call MaybeTrigger zero times
    and leave the response as it was, its body neither read nor closed; when
    err is nil, the listener of OptLogResponse calls MaybeTrigger exactly once, with the
    request's context and an event flagged FlagResponse, and returns nil. -/
theorem C17_listener_on_error (log : Triggerable) (now started : Int) (req : Request)
    (res : Option Response) (err : GoError) :
    OptLogResponse log now req res started (some err)
      = { ret := some err, res := res, original := res.map Response.body, triggered := [] } ∧
    OptLogResponseWithBody log now req res started (some err)
      = some { ret := some err, res := res, original := res.map Response.body,
               triggered := [] } ∧
    (OptLogResponse log now req res started none).ret = none ∧
    (OptLogResponse log now req res started none).res = res ∧
    (OptLogResponse log now req res started none).original = res.map Response.body ∧
    (∃ event, (OptLogResponse log now req res started none).triggered
        = [{ ctx := req.ctx, log := log, event := event }] ∧
      event.flag = FlagResponse) :=
  ⟨rfl, rfl, rfl, rfl, rfl, _, rfl, rfl⟩

/-- C18, as the code has it: Put, Get and Delete build the same path,
    filepath.Join("/v1/", fixSecretDataPrefix(key)); when the rewritten key
    has an element that is neither empty nor "." and has no ".." element, the
    path is "/v1/" followed by those elements joined with single slashes, so
    it begins with "/v1/". -/
theorem C18_request_path (key : String)
    (h1 : pathElements (fixSecretDataPrefix key) ≠ [])
    (h2 : ['.', '.'] ∉ pathElements (fixSecretDataPrefix key)) :
    PutPath key = GetPath key ∧
    DeletePath key = GetPath key ∧
    GetPath key = "/v1/" ++ ⟨joinSlash (pathElements (fixSecretDataPrefix key))⟩ ∧
    HasPrefix (GetPath key) "/v1/" = true := by
  have hp : GetPath key = "/v1/" ++ ⟨joinSlash (pathElements (fixSecretDataPrefix key))⟩ :=
    Join_v1_plain _ h1 h2
  refine ⟨rfl, rfl, hp, ?_⟩
  rw [hp]
  exact HasPrefix_append_self _ _

/-- C18 run on the key "/secret/data/app//db/". -/
theorem C18_request_path_witness :
    pathElements (fixSecretDataPrefix "/secret/data/app//db/")
      = ["secret".data, "data".data, "app".data, "db".data] ∧
    GetPath "/secret/data/app//db/" = "/v1/secret/data/app/db" ∧
    HasPrefix (GetPath "/secret/data/app//db/") "/v1/" = true :=
  ⟨by decide,
    (C18_request_path "/secret/data/app//db/" (by decide) (by decide)).2.2.1.trans (by decide),
    (C18_request_path "/secret/data/app//db/" (by decide) (by decide)).2.2.2⟩

/-- C18 as stated fails: the empty key gives the path "/v1", and a key with
    ".." elements gives a path outside "/v1/": ".." gives "/" and
    "../sys/seal" gives "/sys/seal". -/
theorem C18_counterexample :
    GetPath "" = "/v1" ∧ HasPrefix (GetPath "") "/v1/" = false ∧
    GetPath ".." = "/" ∧ HasPrefix (GetPath "..") "/v1/" = false ∧
    PutPath "../sys/seal" = "/sys/seal" ∧ DeletePath "../sys/seal" = "/sys/seal" ∧
    HasPrefix (PutPath "../sys/seal") "/v1/" = false := by
  decide

/-- C19, as the code has it: fixSecretDataPrefix applied twice gives what
    it gives applied once exactly for the keys that do not begin with two
    slashes (one call removes a single leading slash). -/
theorem C19_idempotent_without_double_slash (k : String) :
    fixSecretDataPrefix (fixSecretDataPrefix k) = fixSecretDataPrefix k
      ↔ HasPrefix k "//" = false := by
  obtain ⟨l⟩ := k
  by_cases h1 : HasPrefix ⟨l⟩ "/" = false
  · refine ⟨fun _ => ?_, fun _ => fix_of_no_slash _ h1⟩
    match l, h1 with
    | [], _ => rfl
    | c :: t, h1 =>
      have hc : ('/' == c) = false := by
        have : (['/'].isPrefixOf (c :: t)) = false := h1
        simpa [List.isPrefixOf] using this
      show (['/', '/'].isPrefixOf (c :: t)) = false
      simp [List.isPrefixOf, hc]
  · match l, h1 with
    | [], h1 => exact absurd rfl h1
    | c :: t, h1 =>
      have hc : c = '/' := by
        by_contra hne
        apply h1
        show (['/'].isPrefixOf (c :: t)) = false
        simp [List.isPrefixOf]
        exact fun h => hne h.symm
      subst hc
      by_cases h2 : HasPrefix ⟨t⟩ "/" = false
      · have e1 : fixSecretDataPrefix ⟨'/' :: t⟩ = fixSecretDataPrefix ⟨t⟩ := by
          rw [fix_cons_slash]
          unfold fixSecretDataPrefix
          simp only [TrimPrefix_slash_of_not _ h2]
        refine ⟨fun _ => ?_, fun _ => by rw [e1]; exact fix_of_no_slash _ h2⟩
        have : (['/'].isPrefixOf t) = false := h2
        show (['/', '/'].isPrefixOf ('/' :: t)) = false
        simpa [List.isPrefixOf] using this
      · match t, h2 with
        | [], h2 => exact absurd rfl h2
        | d :: u, h2 =>
          have hd : d = '/' := by
            by_contra hne
            apply h2
            show (['/'].isPrefixOf (d :: u)) = false
            simp [List.isPrefixOf]
            exact fun h => hne h.symm
          subst hd
          have e1 : fixSecretDataPrefix ⟨'/' :: '/' :: u⟩ = ⟨'/' :: u⟩ := by
            rw [fix_cons_slash]
            rfl
          constructor
          · intro h
            rw [e1] at h
            exact absurd h (fix_cons_slash_ne u)
          · intro h
            have : (['/', '/'].isPrefixOf ('/' :: '/' :: u)) = false := h
            simp [List.isPrefixOf] at this

/-- C19 as stated fails: "//secret/foo" becomes "/secret/foo", which a second
    call rewrites again, to "secret/datafoo". -/
theorem C19_counterexample :
    fixSecretDataPrefix "//secret/foo" = "/secret/foo" ∧
    fixSecretDataPrefix (fixSecretDataPrefix "//secret/foo") = "secret/datafoo" ∧
    fixSecretDataPrefix (fixSecretDataPrefix "//secret/foo")
      ≠ fixSecretDataPrefix "//secret/foo" := by
  decide

/-- C20: each of WithEngine, WithQueryLabel, WithBody, WithElapsed and
    WithErr leaves the other four variant fields and the whole EventMeta
    (flag, timestamp, entity, headings, labels, annotations) as they were;
    each of WithDatabase, WithFlag, WithTimestamp, WithHeadings, WithLabel and
    WithAnnotation leaves engine, queryLabel, body, elapsed and err as they
    were. -/
theorem C20_builders_frame (e : QueryEvent) (s k v : String) (d : Duration)
    (err : Option GoError) (flag : Flag) (ts : Int) (headings : List String) :
    ((e.WithEngine s).queryLabel = e.queryLabel ∧ (e.WithEngine s).body = e.body ∧
      (e.WithEngine s).elapsed = e.elapsed ∧ (e.WithEngine s).err = e.err ∧
      (e.WithEngine s).meta = e.meta) ∧
    ((e.WithQueryLabel s).engine = e.engine ∧ (e.WithQueryLabel s).body = e.body ∧
      (e.WithQueryLabel s).elapsed = e.elapsed ∧ (e.WithQueryLabel s).err = e.err ∧
      (e.WithQueryLabel s).meta = e.meta) ∧
    ((e.WithBody s).engine = e.engine ∧ (e.WithBody s).queryLabel = e.queryLabel ∧
      (e.WithBody s).elapsed = e.elapsed ∧ (e.WithBody s).err = e.err ∧
      (e.WithBody s).meta = e.meta) ∧
    ((e.WithElapsed d).engine = e.engine ∧ (e.WithElapsed d).queryLabel = e.queryLabel ∧
      (e.WithElapsed d).body = e.body ∧ (e.WithElapsed d).err = e.err ∧
      (e.WithElapsed d).meta = e.meta) ∧
    ((e.WithErr err).engine = e.engine ∧ (e.WithErr err).queryLabel = e.queryLabel ∧
      (e.WithErr err).body = e.body ∧ (e.WithErr err).elapsed = e.elapsed ∧
      (e.WithErr err).meta = e.meta) ∧
    sameVariantFields (e.WithDatabase s) e ∧
    sameVariantFields (e.WithFlag flag) e ∧
    sameVariantFields (e.WithTimestamp ts) e ∧
    sameVariantFields (e.WithHeadings headings) e ∧
    sameVariantFields (e.WithLabel k v) e ∧
    sameVariantFields ( QueryEvent.WithAnnotation e k v) e :=
  ⟨⟨rfl, rfl, rfl, rfl, rfl⟩, ⟨rfl, rfl, rfl, rfl, rfl⟩, ⟨rfl, rfl, rfl, rfl, rfl⟩,
    ⟨rfl, rfl, rfl, rfl, rfl⟩, ⟨rfl, rfl, rfl, rfl, rfl⟩,
    ⟨rfl, rfl, rfl, rfl, rfl⟩, ⟨rfl, rfl, rfl, rfl, rfl⟩, ⟨rfl, rfl, rfl, rfl, rfl⟩,
    ⟨rfl, rfl, rfl, rfl, rfl⟩, ⟨rfl, rfl, rfl, rfl, rfl⟩, ⟨rfl, rfl, rfl, rfl, rfl⟩⟩

end GoSdk
